import Mathlib

/-
Verification development for the poultry-CAFO post-processing pipeline
(rule_base_filtering.py and get_image.py).

Shallow embedding conventions:
- A pandas GeoDataFrame of detections is a `List (ℕ × Det)`: each row is a
  (pandas index, attribute record) pair.  `reset_index(drop=True)` renumbers
  the indexes consecutively from 0.
- Geometries are modelled as closed axis-aligned rational boxes (`Box`):
  shapely `intersects` on boxes is closed-interval overlap on both axes.
  Floats are modelled as exact rationals ℚ.
- The source column name `rectangle_aspect_ratio` is rendered as the field
  `aspect`; `distance_to_nearest_road` and `area` keep their source names.
- In rule_base_filtering.py, `exclude_on_location` uses
  `sjoin(..., how="inner", predicate="intersects")`, which yields one output
  row per intersecting (left row, right row) pair, indexed by the left index;
  it is embedded as `sjoin` below.
-/

/-- Closed axis-aligned box with rational coordinates, standing in for a
shapely geometry in the spatial-join stage. -/
structure Box where
  minx : ℚ
  miny : ℚ
  maxx : ℚ
  maxy : ℚ
  deriving DecidableEq, Repr

/-- shapely `intersects` for two closed boxes: overlap on both axes,
touching boundaries count as intersecting. -/
def boxIntersects (a b : Box) : Bool :=
  decide (a.minx ≤ b.maxx ∧ b.minx ≤ a.maxx ∧ a.miny ≤ b.maxy ∧ b.miny ≤ a.maxy)

/-- One detection row.  `aspect` embeds the source column
`rectangle_aspect_ratio`; `terrain_label` is `none` until the land-cover
stage writes it (the column does not exist in the input file). -/
structure Det where
  aspect : ℚ
  distance_to_nearest_road : ℚ
  area : ℚ
  geometry : Box
  terrain_label : Option ℤ
  deriving DecidableEq, Repr

/-- pandas `Series.between(lo, hi)`: inclusive on both ends. -/
def betweenQ (lo hi x : ℚ) : Bool :=
  decide (lo ≤ x ∧ x ≤ hi)

/-- The literal 3.4, in reduced form (17/5) so that kernel evaluation works. -/
def aspectLo : ℚ := ⟨17, 5, by decide, by decide⟩

/-- The literal 20.49 (2049/100). -/
def aspectHi : ℚ := ⟨2049, 100, by decide, by decide⟩

/-- The literal 525.69 (52569/100). -/
def areaLo : ℚ := ⟨52569, 100, by decide, by decide⟩

/-- The literal 8106.53 (810653/100). -/
def areaHi : ℚ := ⟨810653, 100, by decide, by decide⟩

theorem aspectLo_val : aspectLo = 3.4 := by
  norm_num [aspectLo, Rat.mk_eq_divInt, Rat.divInt_eq_div]

theorem aspectHi_val : aspectHi = 20.49 := by
  norm_num [aspectHi, Rat.mk_eq_divInt, Rat.divInt_eq_div]

theorem areaLo_val : areaLo = 525.69 := by
  norm_num [areaLo, Rat.mk_eq_divInt, Rat.divInt_eq_div]

theorem areaHi_val : areaHi = 8106.53 := by
  norm_num [areaHi, Rat.mk_eq_divInt, Rat.divInt_eq_div]

/-- pandas `reset_index(drop=True)`: keep the rows, renumber indexes 0,1,…. -/
def resetIndex (l : List (ℕ × Det)) : List (ℕ × Det) :=
  (l.map Prod.snd).enum

/-- `filter_by_postprocess_rule` from rule_base_filtering.py:
keep rows with `rectangle_aspect_ratio.between(3.4, 20.49)` then reset the
index, keep rows with `distance_to_nearest_road != 0` then reset the index,
keep rows with `area.between(525.69, 8106.53)` without resetting the index. -/
def filter_by_postprocess_rule (df : List (ℕ × Det)) : List (ℕ × Det) :=
  (resetIndex
    ((resetIndex (df.filter fun p => betweenQ aspectLo aspectHi p.2.aspect)).filter
      fun p => decide (p.2.distance_to_nearest_road ≠ 0))).filter
    fun p => betweenQ areaLo areaHi p.2.area

/-- Values of a row list (drop the pandas index). -/
def rowVals (l : List (ℕ × Det)) : List Det :=
  l.map Prod.snd

theorem rowVals_resetIndex (l : List (ℕ × Det)) : rowVals (resetIndex l) = rowVals l := by
  simp [rowVals, resetIndex, List.enum_map_snd]

theorem rowVals_filter (l : List (ℕ × Det)) (pr : ℕ × Det → Bool) (q : Det → Bool)
    (h : ∀ p : ℕ × Det, pr p = q p.2) :
    rowVals (l.filter pr) = (rowVals l).filter q := by
  induction l with
  | nil => rfl
  | cons x xs ih =>
    by_cases hx : q x.2 <;> simp [rowVals, List.filter, h x, hx] at ih ⊢ <;> exact ih

/-- Predicate actually enforced by `filter_by_postprocess_rule`. -/
def keepRule (r : Det) : Bool :=
  betweenQ aspectLo aspectHi r.aspect &&
    decide (r.distance_to_nearest_road ≠ 0) &&
    betweenQ areaLo areaHi r.area

theorem filter_rule_vals (df : List (ℕ × Det)) :
    rowVals (filter_by_postprocess_rule df) = (rowVals df).filter keepRule := by
  unfold filter_by_postprocess_rule
  rw [rowVals_filter _ _ (fun r => betweenQ areaLo areaHi r.area) (fun p => rfl),
    rowVals_resetIndex,
    rowVals_filter _ _ (fun r => decide (r.distance_to_nearest_road ≠ 0)) (fun p => rfl),
    rowVals_resetIndex,
    rowVals_filter _ _ (fun r => betweenQ aspectLo aspectHi r.aspect) (fun p => rfl),
    List.filter_filter, List.filter_filter]
  apply List.filter_congr
  intro r _
  unfold keepRule
  cases hb : betweenQ aspectLo aspectHi r.aspect <;>
    cases hc : decide (r.distance_to_nearest_road ≠ 0) <;>
      cases hd : betweenQ areaLo areaHi r.area <;> simp [hb, hc, hd]

/-
Spatial-exclusion stage (exclude_on_location).
-/

/-- geopandas `sjoin(df, polygon, how="inner", predicate="intersects")`:
one output row per intersecting (detection row, layer row) pair, carrying
the left (detection) index first; left rows in order, matches in layer
order within a left row. -/
def sjoin (df : List (ℕ × Det)) (poly : List (ℕ × Box)) : List (ℕ × Det × ℕ) :=
  match df with
  | [] => []
  | p :: ps =>
      ((poly.filter fun q => boxIntersects p.2.geometry q.2).map fun q => (p.1, p.2, q.1))
        ++ sjoin ps poly

/-- pandas `frame[~frame.index.duplicated(keep="first")]`: drop every row whose
index has already appeared earlier (`seen` accumulates the indexes kept). -/
def dedupByFst {β : Type} : List (ℕ × β) → List ℕ → List (ℕ × β)
  | [], _ => []
  | x :: xs, seen =>
      if x.1 ∈ seen then dedupByFst xs seen else x :: dedupByFst xs (x.1 :: seen)

/-- `exclude_on_location(df, polygon, name)` from rule_base_filtering.py:
inner spatial join, drop duplicated indexes keeping the first match, then
keep exactly the rows of `df` whose index is not among the join indexes.
The printed count is `(dedupByFst (sjoin df poly) []).length`. -/
def exclude_on_location (df : List (ℕ × Det)) (poly : List (ℕ × Box)) : List (ℕ × Det) :=
  df.filter fun p =>
    !(decide (p.1 ∈ (dedupByFst (sjoin df poly) []).map fun t => t.1))

/-- Folding `exclude_on_location` over a list of reference layers, as `main`
does for coastline, water, airports, parks, mountains and roads. -/
def excludeLayers (df : List (ℕ × Det)) (layers : List (List (ℕ × Box))) : List (ℕ × Det) :=
  layers.foldl exclude_on_location df

/-- Detection geometry intersects some geometry of the layer. -/
def hitsLayer (d : Det) (poly : List (ℕ × Box)) : Bool :=
  poly.any fun q => boxIntersects d.geometry q.2

/-- Indexes of the rows of `df` whose geometry intersects the layer. -/
def interIdx (df : List (ℕ × Det)) (poly : List (ℕ × Box)) : List ℕ :=
  (df.filter fun p => hitsLayer p.2 poly).map Prod.fst

theorem mem_sjoin_fst (df : List (ℕ × Det)) (poly : List (ℕ × Box)) (i : ℕ) :
    (i ∈ (sjoin df poly).map fun t => t.1) ↔
      ∃ p ∈ df, p.1 = i ∧ hitsLayer p.2 poly = true := by
  induction df with
  | nil => simp [sjoin]
  | cons x xs ih =>
    simp only [sjoin, List.map_append, List.mem_append, ih, List.mem_cons]
    constructor
    · rintro (h | h)
      · simp only [List.map_map, List.mem_map, Function.comp] at h
        obtain ⟨q, hq, hqi⟩ := h
        rw [List.mem_filter] at hq
        exact ⟨x, Or.inl rfl, hqi.symm ▸ rfl, List.any_eq_true.mpr ⟨q, hq.1, hq.2⟩⟩
      · obtain ⟨p, hp, hpi, hph⟩ := h
        exact ⟨p, Or.inr hp, hpi, hph⟩
    · rintro ⟨p, (rfl | hp), hpi, hph⟩
      · left
        simp only [hitsLayer, List.any_eq_true] at hph
        obtain ⟨q, hq, hqx⟩ := hph
        simp only [List.map_map, List.mem_map, Function.comp]
        exact ⟨q, List.mem_filter.mpr ⟨hq, hqx⟩, hpi⟩
      · exact Or.inr ⟨p, hp, hpi, hph⟩

theorem mem_dedupByFst_fst {β : Type} (l : List (ℕ × β)) (seen : List ℕ) (i : ℕ) :
    (i ∈ (dedupByFst l seen).map fun t => t.1) ↔
      (i ∈ l.map fun t => t.1) ∧ i ∉ seen := by
  induction l generalizing seen with
  | nil => simp [dedupByFst]
  | cons x xs ih =>
    by_cases hx : x.1 ∈ seen
    · simp only [dedupByFst, if_pos hx, ih, List.map_cons, List.mem_cons]
      constructor
      · rintro ⟨h1, h2⟩; exact ⟨Or.inr h1, h2⟩
      · rintro ⟨(rfl | h1), h2⟩
        · exact absurd hx h2
        · exact ⟨h1, h2⟩
    · simp only [dedupByFst, if_neg hx, List.map_cons, List.mem_cons, ih, List.mem_cons]
      constructor
      · rintro (rfl | ⟨h1, h2⟩)
        · exact ⟨Or.inl rfl, hx⟩
        · exact ⟨Or.inr h1, fun hs => h2 (Or.inr hs)⟩
      · rintro ⟨(rfl | h1), h2⟩
        · exact Or.inl rfl
        · by_cases hxi : i = x.1
          · exact Or.inl hxi
          · exact Or.inr ⟨h1, fun hs => by
              rcases hs with hs | hs
              · exact hxi hs
              · exact h2 hs⟩

theorem mem_interIdx (df : List (ℕ × Det)) (poly : List (ℕ × Box)) (i : ℕ) :
    i ∈ interIdx df poly ↔ ∃ p ∈ df, p.1 = i ∧ hitsLayer p.2 poly = true := by
  simp only [interIdx, List.mem_map]
  constructor
  · rintro ⟨p, hp, hpi⟩
    rw [List.mem_filter] at hp
    exact ⟨p, hp.1, hpi, hp.2⟩
  · rintro ⟨p, hp, hpi, hph⟩
    exact ⟨p, List.mem_filter.mpr ⟨hp, hph⟩, hpi⟩

/-- `exclude_on_location` keeps exactly the rows whose index is not among
the indexes of rows intersecting the layer. -/
theorem exclude_on_location_eq (df : List (ℕ × Det)) (poly : List (ℕ × Box)) :
    exclude_on_location df poly = df.filter fun p => !(decide (p.1 ∈ interIdx df poly)) := by
  apply List.filter_congr
  intro p _
  have h : (p.1 ∈ (dedupByFst (sjoin df poly) []).map fun t => t.1) ↔
      p.1 ∈ interIdx df poly := by
    rw [mem_dedupByFst_fst, mem_sjoin_fst, mem_interIdx]
    simp
  rw [decide_eq_decide.mpr h]

theorem interIdx_filter (df : List (ℕ × Det)) (poly : List (ℕ × Box)) (Q : ℕ → Bool)
    (i : ℕ) (hQ : Q i = true) :
    (i ∈ interIdx (df.filter fun p => Q p.1) poly) ↔ i ∈ interIdx df poly := by
  rw [mem_interIdx, mem_interIdx]
  constructor
  · rintro ⟨p, hp, hpi, hph⟩
    exact ⟨p, (List.mem_filter.mp hp).1, hpi, hph⟩
  · rintro ⟨p, hp, hpi, hph⟩
    exact ⟨p, List.mem_filter.mpr ⟨hp, hpi.symm ▸ hQ⟩, hpi, hph⟩

/-- Running the exclusion stage over a list of layers keeps exactly the rows
whose index intersects none of the layers (indexes measured on the original
frame). -/
theorem excludeLayers_eq (layers : List (List (ℕ × Box))) (df : List (ℕ × Det)) :
    excludeLayers df layers =
      df.filter fun p => decide (∀ L ∈ layers, p.1 ∉ interIdx df L) := by
  induction layers generalizing df with
  | nil =>
    simp only [excludeLayers, List.foldl_nil]
    symm
    rw [List.filter_eq_self]
    intro p _
    simp
  | cons L Ls ih =>
    have step : excludeLayers df (L :: Ls) = excludeLayers (exclude_on_location df L) Ls := rfl
    rw [step, ih, exclude_on_location_eq, List.filter_filter]
    apply List.filter_congr
    intro p hp
    rw [← decide_not, ← Bool.decide_and]
    apply decide_eq_decide.mpr
    constructor
    · rintro ⟨hLs, hQ⟩ L' hL'
      rcases List.mem_cons.mp hL' with rfl | hL'
      · exact hQ
      · intro hmem
        exact hLs L' hL'
          ((interIdx_filter df L' (fun i => !(decide (i ∈ interIdx df L))) p.1
            (by simp [hQ])).mpr hmem)
    · intro hall
      have hQ : p.1 ∉ interIdx df L := hall L (List.mem_cons_self L Ls)
      refine ⟨fun L' hL' hmem => ?_, hQ⟩
      exact hall L' (List.mem_cons_of_mem L hL')
        ((interIdx_filter df L' (fun i => !(decide (i ∈ interIdx df L))) p.1
          (by simp [hQ])).mp hmem)

/-
Land-cover stage and the orchestrating `main`.
-/

/-- `exclude_on_land_cover` from rule_base_filtering.py: write the label
returned by the Earth Engine query (modelled as the oracle `classify` on the
row geometry) into a new `terrain_label` column, then keep the rows whose
label is not in `[0]`. -/
def exclude_on_land_cover (classify : Box → ℤ) (df : List (ℕ × Det)) : List (ℕ × Det) :=
  (df.map fun p => (p.1, { p.2 with terrain_label := some (classify p.2.geometry) })).filter
    fun p => !(decide (p.2.terrain_label ∈ [some (0 : ℤ)]))

/-- `save_to_geojson` writes to this fixed path, whatever the input was. -/
def save_to_geojson_path : String := "output/final_data.geojson"

/-- `main(ee)` from rule_base_filtering.py: postprocess-rule filter, then the
exclusion stages over the configured reference layers in order, then the
optional land-cover stage, then save.  `df` is the frame loaded from `path`;
the result pairs the output path with the final frame. -/
def main_run (ee : Bool) (classify : Box → ℤ) (layers : List (List (ℕ × Box)))
    (df : List (ℕ × Det)) (path : String) : String × List (ℕ × Det) :=
  (save_to_geojson_path,
    if ee then exclude_on_land_cover classify (excludeLayers (filter_by_postprocess_rule df) layers)
    else excludeLayers (filter_by_postprocess_rule df) layers)

/-- Rows with the `terrain_label` column cleared, for comparing frames up to
that column. -/
def stripLabel (p : ℕ × Det) : ℕ × Det :=
  (p.1, { p.2 with terrain_label := none })

/-- Characters strictly before the first occurrence of `sep`. -/
def takeUntil (sep : Char) : List Char → List Char
  | [] => []
  | c :: cs => if c = sep then [] else c :: takeUntil sep cs

/-- Characters after the last slash (the basename of a path). -/
def afterLastSlash (l : List Char) : List Char :=
  (l.reverse.takeWhile fun c => !(decide (c = '/'))).reverse

/-- Modelled from the spec: the region code is the first "_"-delimited token
of the input path's basename.  No such extraction exists in
rule_base_filtering.py; this definition renders the spec's words for
comparison with the code's fixed output path. -/
def regionCodeSpec (path : String) : String :=
  String.mk (takeUntil '_' (afterLastSlash path.data))

/-- Does `sub` occur at the start of `l`? -/
def charsStartWith : List Char → List Char → Bool
  | [], _ => true
  | _ :: _, [] => false
  | a :: as, b :: bs => decide (a = b) && charsStartWith as bs

/-- Does `sub` occur contiguously anywhere in `l`? -/
def charsContains (sub : List Char) : List Char → Bool
  | [] => sub.isEmpty
  | c :: cs => charsStartWith sub (c :: cs) || charsContains sub cs

/-
Reference-layer loading (get_geojson / get_geojson_with_buffer).

Geometries here are symbolic: coordinates are exact rationals, reprojection
between CRSs is an arbitrary coordinate transformation `trans a b : point in
CRS a ↦ the same point in CRS b`, and a nonzero buffer is kept as an
uninterpreted `buffered` node.  A zero-distance buffer follows GEOS/shapely:
`buffer(0)` of a valid polygon returns the polygon unchanged, while
`buffer(0)` of a line or point has zero area and returns an empty polygon.
-/

/-- Symbolic geometry for the layer-loading stage. -/
inductive Geom where
  | pt : ℚ × ℚ → Geom
  | line : List (ℚ × ℚ) → Geom
  | poly : List (ℚ × ℚ) → Geom
  | emptyG : Geom
  | buffered : ℚ → Geom → Geom
  deriving DecidableEq, Repr

/-- Apply a coordinate transformation to every coordinate of a geometry. -/
def mapGeom (f : ℚ × ℚ → ℚ × ℚ) : Geom → Geom
  | Geom.pt p => Geom.pt (f p)
  | Geom.line ps => Geom.line (ps.map f)
  | Geom.poly ps => Geom.poly (ps.map f)
  | Geom.emptyG => Geom.emptyG
  | Geom.buffered d g => Geom.buffered d (mapGeom f g)

/-- A GeoDataFrame of layer geometries: a CRS identifier (EPSG code) plus
the geometry column. -/
structure GeoDF where
  crs : ℕ
  geoms : List Geom
  deriving DecidableEq, Repr

/-- geopandas `to_crs`: reproject every geometry into CRS `c`. -/
def to_crs (trans : ℕ → ℕ → ℚ × ℚ → ℚ × ℚ) (g : GeoDF) (c : ℕ) : GeoDF :=
  ⟨c, g.geoms.map (mapGeom (trans g.crs c))⟩

/-- shapely `buffer(d)`: at `d = 0`, a valid polygon is returned unchanged
and lines/points become empty (their zero-distance buffer has zero area);
a nonzero buffer is kept symbolic. -/
def bufferGeom (d : ℚ) (g : Geom) : Geom :=
  if d = 0 then
    match g with
    | Geom.poly ps => Geom.poly ps
    | _ => Geom.emptyG
  else Geom.buffered d g

/-- `get_geojson(path, df)`: read the layer (here: `src`) and reproject it to
the detection frame's CRS. -/
def get_geojson (trans : ℕ → ℕ → ℚ × ℚ → ℚ × ℚ) (src : GeoDF) (targetCrs : ℕ) : GeoDF :=
  to_crs trans src targetCrs

/-- `get_geojson_with_buffer(path, df, buffer_distance)`: reproject the layer
to EPSG:32633 (metric units), buffer it, wrap the buffered geometries in a
fresh frame, and reproject to the detection frame's CRS. -/
def get_geojson_with_buffer (trans : ℕ → ℕ → ℚ × ℚ → ℚ × ℚ) (src : GeoDF)
    (targetCrs : ℕ) (d : ℚ) : GeoDF :=
  to_crs trans (GeoDF.mk 32633 ((to_crs trans src 32633).geoms.map (bufferGeom d))) targetCrs

/-
Image acquisition (get_image.py).  Item footprints and the query bbox are
modelled as rational boxes, so the shapely intersection area is exact.
-/

/-- A bounding box given as minx, miny, maxx, maxy (the CLI input list). -/
structure Bbox where
  minx : ℚ
  miny : ℚ
  maxx : ℚ
  maxy : ℚ
  deriving DecidableEq, Repr

/-- `bbox_geo_item`: the bbox as a polygon (here both are boxes). -/
def bbox_geo_item (b : Bbox) : Box :=
  ⟨b.minx, b.miny, b.maxx, b.maxy⟩

/-- A catalog item: its footprint geometry and its `naip:year` property. -/
structure Item where
  geometry : Box
  year : ℤ
  deriving DecidableEq, Repr

/-- Area of the intersection of two boxes. -/
def boxOverlapArea (a b : Box) : ℚ :=
  max 0 (min a.maxx b.maxx - max a.minx b.minx) *
    max 0 (min a.maxy b.maxy - max a.miny b.miny)

/-- `area_of_overlap(item, area_shape)` from get_image.py. -/
def area_of_overlap (item : Item) (area_shape : Box) : ℚ :=
  boxOverlapArea item.geometry area_shape

/-- Sort key used by `get_tif_image`: (overlap area, year). -/
def itemKey (area_shape : Box) (item : Item) : ℚ × ℤ :=
  (area_of_overlap item area_shape, item.year)

/-- Strict lexicographic order on (overlap area, year). -/
def lexLt (a b : ℚ × ℤ) : Prop :=
  a.1 < b.1 ∨ (a.1 = b.1 ∧ a.2 < b.2)

/-- Lexicographic order on (overlap area, year). -/
def lexLe (a b : ℚ × ℤ) : Prop :=
  a.1 < b.1 ∨ (a.1 = b.1 ∧ a.2 ≤ b.2)

instance (a b : ℚ × ℤ) : Decidable (lexLt a b) := by
  unfold lexLt; infer_instance

instance (a b : ℚ × ℤ) : Decidable (lexLe a b) := by
  unfold lexLe; infer_instance

/-- Stable descending insertion: the inserted element (earlier in the
original list) passes over later elements only when their key is strictly
greater, matching the stability of Python's `sorted(..., reverse=True)`. -/
def insertDesc (key : Item → ℚ × ℤ) (x : Item) : List Item → List Item
  | [] => [x]
  | y :: ys => if lexLt (key x) (key y) then y :: insertDesc key x ys else x :: y :: ys

/-- Stable descending sort by key. -/
def sortDesc (key : Item → ℚ × ℤ) : List Item → List Item
  | [] => []
  | x :: xs => insertDesc key x (sortDesc key xs)

/-- `get_tif_image(bbox, catalog, time_range)` from get_image.py, with the
catalog search result passed in as `items_lst`: if the search returned
nothing, print a diagnostic and return `None`; otherwise sort by
(overlap area, year) descending and return the first item. -/
def get_tif_image (bbox : Bbox) (items_lst : List Item) : Option Item :=
  if items_lst.length = 0 then none
  else (sortDesc (itemKey (bbox_geo_item bbox)) items_lst).head?

theorem lexLe_refl (a : ℚ × ℤ) : lexLe a a :=
  Or.inr ⟨rfl, le_refl _⟩

theorem lexLe_trans {a b c : ℚ × ℤ} (h1 : lexLe a b) (h2 : lexLe b c) : lexLe a c := by
  rcases h1 with h1 | ⟨e1, h1⟩ <;> rcases h2 with h2 | ⟨e2, h2⟩
  · exact Or.inl (lt_trans h1 h2)
  · exact Or.inl (e2 ▸ h1)
  · exact Or.inl (e1 ▸ h2)
  · exact Or.inr ⟨e1.trans e2, le_trans h1 h2⟩

theorem lexLt_le {a b : ℚ × ℤ} (h : lexLt a b) : lexLe a b := by
  rcases h with h | ⟨e, h⟩
  · exact Or.inl h
  · exact Or.inr ⟨e, le_of_lt h⟩

theorem lexLe_of_not_lt {a b : ℚ × ℤ} (h : ¬ lexLt a b) : lexLe b a := by
  rcases lt_trichotomy a.1 b.1 with h1 | h1 | h1
  · exact absurd (Or.inl h1) h
  · exact Or.inr ⟨h1.symm, le_of_not_lt fun hl => h (Or.inr ⟨h1, hl⟩)⟩
  · exact Or.inl h1

/-- The head of the stable descending sort is an element of the list whose
key bounds the key of every element. -/
theorem sortDesc_head_max (key : Item → ℚ × ℤ) (l : List Item) (h : l ≠ []) :
    ∃ b, (sortDesc key l).head? = some b ∧ b ∈ l ∧
      ∀ y ∈ l, lexLe (key y) (key b) := by
  induction l with
  | nil => exact absurd rfl h
  | cons x xs ih =>
    by_cases hxs : xs = []
    · subst hxs
      refine ⟨x, rfl, List.mem_cons_self x [], ?_⟩
      intro y hy
      rcases List.mem_cons.mp hy with rfl | hy
      · exact lexLe_refl _
      · cases hy
    · obtain ⟨b, hb1, hb2, hb3⟩ := ih hxs
      obtain ⟨t, ht⟩ : ∃ t, sortDesc key xs = b :: t := by
        cases hs : sortDesc key xs with
        | nil => rw [hs] at hb1; cases hb1
        | cons u us =>
          rw [hs] at hb1
          cases hb1
          exact ⟨us, rfl⟩
      simp only [sortDesc]
      rw [ht]
      by_cases hlt : lexLt (key x) (key b)
      · refine ⟨b, ?_, List.mem_cons_of_mem x hb2, ?_⟩
        · simp [insertDesc, hlt]
        · intro y hy
          rcases List.mem_cons.mp hy with rfl | hy
          · exact lexLt_le hlt
          · exact hb3 y hy
      · refine ⟨x, ?_, List.mem_cons_self x xs, ?_⟩
        · simp [insertDesc, hlt]
        · intro y hy
          rcases List.mem_cons.mp hy with rfl | hy
          · exact lexLe_refl _
          · exact lexLe_trans (hb3 y hy) (lexLe_of_not_lt hlt)

/-
Concrete data for witnesses and counterexamples.
-/

/-- A detection passing every postprocess predicate, sitting at the origin. -/
def detA : Det := ⟨4, 1, 1000, ⟨0, 0, 10, 10⟩, none⟩

/-- A detection passing every postprocess predicate, far from `detA`. -/
def detB : Det := ⟨5, 2, 2000, ⟨100, 100, 110, 110⟩, none⟩

/-- A one-geometry layer intersecting `detA` only. -/
def layerA : List (ℕ × Box) := [(0, ⟨5, 5, 20, 20⟩)]

/-- A one-geometry layer intersecting `detB` only. -/
def layerB : List (ℕ × Box) := [(0, ⟨105, 105, 120, 120⟩)]

/-- A layer with two geometries, both intersecting `detA`. -/
def layerTwo : List (ℕ × Box) := [(0, ⟨5, 5, 20, 20⟩), (1, ⟨0, 0, 3, 3⟩)]

/-
Claim C1.
-/

/-- Claim C1 counterexample: on a one-row frame whose detection intersects
the layer, `exclude_on_location` returns the empty frame — the row is
removed, not kept with an exclusion mark, so the output does not contain the
same rows as the input. -/
theorem C1_counterexample :
    exclude_on_location [(0, detA)] layerA = [] ∧
      ([(0, detA)] : List (ℕ × Det)) ≠ [] := by
  constructor
  · decide
  · decide

/-- Claim C1 (amended): `exclude_on_location` removes every detection whose
geometry intersects some geometry of the layer and returns the remaining
rows unchanged; no flag or exclusion-reason column is involved (assuming the
frame's pandas indexes are distinct, as they are for every frame the
pipeline builds). -/
theorem C1_removes_not_flags (df : List (ℕ × Det)) (poly : List (ℕ × Box))
    (hnd : (df.map Prod.fst).Nodup) :
    exclude_on_location df poly = df.filter fun p => !(hitsLayer p.2 poly) := by
  rw [exclude_on_location_eq]
  apply List.filter_congr
  intro p hp
  have hdec : decide (p.1 ∈ interIdx df poly) = hitsLayer p.2 poly := by
    cases hh : hitsLayer p.2 poly
    · rw [decide_eq_false_iff_not]
      intro hmemI
      obtain ⟨q, hq, hqi, hqh⟩ := (mem_interIdx df poly p.1).mp hmemI
      have hqp : q = p := List.inj_on_of_nodup_map hnd hq hp hqi
      rw [hqp, hh] at hqh
      cases hqh
    · exact decide_eq_true ((mem_interIdx df poly p.1).mpr ⟨p, hp, rfl, hh⟩)
  rw [hdec]

/-- Claim C1 (amended) witness at a concrete two-row frame. -/
theorem C1_removes_not_flags_witness :
    exclude_on_location [(0, detA), (1, detB)] layerA =
      List.filter (fun p => !(hitsLayer p.2 layerA)) [(0, detA), (1, detB)] :=
  C1_removes_not_flags [(0, detA), (1, detB)] layerA (by decide)

/-
Claim C2.
-/

/-- Predicate asserted by the spec for the attribute filter: aspect ratio in
[3.4, 20.49], road distance strictly greater than the default threshold 0,
area in [525.69, 8106.53]. -/
def claimKeep (r : Det) : Bool :=
  betweenQ aspectLo aspectHi r.aspect &&
    decide (0 < r.distance_to_nearest_road) &&
    betweenQ areaLo areaHi r.area

/-- Claim C2 counterexample: the code tests `distance_to_nearest_road != 0`,
not `> 0`; a row with distance -1 (and the other predicates satisfied) is
retained by `filter_by_postprocess_rule` although the claim's strict
inequality says it must be removed. -/
theorem C2_counterexample :
    rowVals (filter_by_postprocess_rule [(0, ⟨4, -1, 1000, ⟨0, 0, 1, 1⟩, none⟩)]) ≠
      (rowVals [(0, ⟨4, -1, 1000, ⟨0, 0, 1, 1⟩, none⟩)]).filter claimKeep := by
  decide

/-- Claim C2 (amended): on frames whose road distances are nonnegative (they
are distances), `filter_by_postprocess_rule` retains exactly the rows
satisfying the three predicates of the claim — there the code's
`distance != 0` agrees with the claim's `distance > 0` — and removes every
other row. -/
theorem C2_attribute_filter (df : List (ℕ × Det))
    (hnn : ∀ p ∈ df, 0 ≤ p.2.distance_to_nearest_road) :
    rowVals (filter_by_postprocess_rule df) = (rowVals df).filter claimKeep := by
  rw [filter_rule_vals]
  apply List.filter_congr
  intro r hr
  obtain ⟨p, hp, hpr⟩ := List.mem_map.mp hr
  have hnn' : 0 ≤ r.distance_to_nearest_road := hpr ▸ hnn p hp
  have hmid : decide (r.distance_to_nearest_road ≠ 0) =
      decide (0 < r.distance_to_nearest_road) :=
    decide_eq_decide.mpr
      ⟨fun hne => lt_of_le_of_ne hnn' (Ne.symm hne), fun hlt => ne_of_gt hlt⟩
  unfold keepRule claimKeep
  rw [hmid]

/-- Claim C2 witness at a concrete frame: one passing row, one row failing
the aspect-ratio predicate, one row failing the area predicate. -/
theorem C2_attribute_filter_witness :
    rowVals (filter_by_postprocess_rule
        [(0, detA), (1, ⟨2, 1, 1000, ⟨0, 0, 1, 1⟩, none⟩),
          (2, ⟨4, 1, 1, ⟨0, 0, 1, 1⟩, none⟩)]) =
      (rowVals [(0, detA), (1, ⟨2, 1, 1000, ⟨0, 0, 1, 1⟩, none⟩),
          (2, ⟨4, 1, 1, ⟨0, 0, 1, 1⟩, none⟩)]).filter claimKeep :=
  C2_attribute_filter _ (by decide)

/-
Claim C3.
-/

/-- Claim C3: applying the per-layer exclusion stage over any permutation of
the reference layers yields the same final frame, hence the same
excluded/retained partition of detections. -/
theorem C3_order_independent (df : List (ℕ × Det))
    (layers layers' : List (List (ℕ × Box))) (h : layers.Perm layers') :
    excludeLayers df layers = excludeLayers df layers' := by
  rw [excludeLayers_eq, excludeLayers_eq]
  apply List.filter_congr
  intro p _
  exact decide_eq_decide.mpr
    ⟨fun hall L hL => hall L (h.mem_iff.mpr hL),
      fun hall L hL => hall L (h.mem_iff.mp hL)⟩

/-- Claim C3 witness: two layers applied in both orders over a concrete
two-row frame. -/
theorem C3_order_independent_witness :
    excludeLayers [(0, detA), (1, detB)] [layerA, layerB] =
      excludeLayers [(0, detA), (1, detB)] [layerB, layerA] :=
  C3_order_independent [(0, detA), (1, detB)] [layerA, layerB] [layerB, layerA]
    (List.Perm.swap layerB layerA [])

/-
Claim C4.
-/

theorem dedupByFst_fst_nodup {β : Type} (l : List (ℕ × β)) (seen : List ℕ) :
    ((dedupByFst l seen).map fun t => t.1).Nodup := by
  induction l generalizing seen with
  | nil => exact List.nodup_nil
  | cons x xs ih =>
    by_cases hx : x.1 ∈ seen
    · simpa [dedupByFst, hx] using ih seen
    · simp only [dedupByFst, if_neg hx, List.map_cons, List.nodup_cons]
      refine ⟨fun hmem => ?_, ih (x.1 :: seen)⟩
      exact ((mem_dedupByFst_fst xs (x.1 :: seen) x.1).mp hmem).2
        (List.mem_cons_self x.1 seen)

theorem sjoin_append (s t : List (ℕ × Det)) (poly : List (ℕ × Box)) :
    sjoin (s ++ t) poly = sjoin s poly ++ sjoin t poly := by
  induction s with
  | nil => rfl
  | cons x xs ih => simp [sjoin, ih]

theorem count_fst_map_pair (i : ℕ) (d : Det) (l : List (ℕ × Box)) :
    (((l.map fun q => ((i, d, q.1) : ℕ × Det × ℕ)).map fun t => t.1).count i) =
      l.length := by
  induction l with
  | nil => rfl
  | cons x xs ih =>
    have hstep : (((x :: xs).map fun q => ((i, d, q.1) : ℕ × Det × ℕ)).map fun t => t.1) =
        i :: ((xs.map fun q => ((i, d, q.1) : ℕ × Det × ℕ)).map fun t => t.1) := rfl
    rw [hstep, List.count_cons_self, ih, List.length_cons]

/-- Claim C4: if a detection row (i, d) intersects at least two geometries
of a single layer, the deduplicated spatial join counts index i exactly once
(while the raw join counts it at least twice), and the exclusion stage drops
every row with index i. -/
theorem C4_dedup_once (df : List (ℕ × Det)) (poly : List (ℕ × Box)) (i : ℕ) (d : Det)
    (hmem : (i, d) ∈ df)
    (hN : 2 ≤ (poly.filter fun q => boxIntersects d.geometry q.2).length) :
    (((dedupByFst (sjoin df poly) []).map fun t => t.1).count i = 1) ∧
      2 ≤ (((sjoin df poly).map fun t => t.1).count i) ∧
      ∀ p ∈ exclude_on_location df poly, p.1 ≠ i := by
  have hhits : hitsLayer d poly = true := by
    have hpos : 0 < (poly.filter fun q => boxIntersects d.geometry q.2).length :=
      lt_of_lt_of_le (by norm_num) hN
    obtain ⟨q, hq⟩ := List.exists_mem_of_length_pos hpos
    rw [List.mem_filter] at hq
    exact List.any_eq_true.mpr ⟨q, hq.1, hq.2⟩
  have hmemdedup : i ∈ (dedupByFst (sjoin df poly) []).map fun t => t.1 := by
    rw [mem_dedupByFst_fst]
    refine ⟨(mem_sjoin_fst df poly i).mpr ⟨(i, d), hmem, rfl, hhits⟩, ?_⟩
    simp
  refine ⟨List.count_eq_one_of_mem (dedupByFst_fst_nodup _ _) hmemdedup, ?_, ?_⟩
  · obtain ⟨s, t, hst⟩ := List.append_of_mem hmem
    rw [hst, sjoin_append]
    have hcons : sjoin ((i, d) :: t) poly =
        ((poly.filter fun q => boxIntersects d.geometry q.2).map
          fun q => (i, d, q.1)) ++ sjoin t poly := rfl
    rw [hcons]
    simp only [List.map_append, List.count_append]
    rw [count_fst_map_pair]
    omega
  · intro p hp hpi
    have hcond := (List.mem_filter.mp hp).2
    rw [Bool.not_eq_eq_eq_not, Bool.not_true, decide_eq_false_iff_not] at hcond
    exact hcond (hpi ▸ hmemdedup)

/-- Claim C4 witness: a single detection intersecting both geometries of
`layerTwo`. -/
theorem C4_dedup_once_witness :
    (((dedupByFst (sjoin [(0, detA)] layerTwo) []).map fun t => t.1).count 0 = 1) ∧
      2 ≤ (((sjoin [(0, detA)] layerTwo).map fun t => t.1).count 0) ∧
      ∀ p ∈ exclude_on_location [(0, detA)] layerTwo, p.1 ≠ 0 :=
  C4_dedup_once [(0, detA)] layerTwo 0 detA (by decide) (by decide)

/-
Claim C5.
-/

/-- Identity transform family: a legitimate exact reprojection (every CRS
rendered with the same coordinates). -/
def transId : ℕ → ℕ → ℚ × ℚ → ℚ × ℚ := fun _ _ p => p

/-- Claim C5 counterexample: for a layer holding a line (as the coastline
layer does), loading through the buffered path with distance 0 yields an
empty geometry — shapely's zero-distance buffer of a line is the empty
polygon — not the reprojected source line; so buffering by 0 is not a no-op
for every layer. -/
theorem C5_counterexample :
    get_geojson_with_buffer transId (GeoDF.mk 4326 [Geom.line [(0, 0), (1, 0)]]) 4326 0 ≠
      get_geojson transId (GeoDF.mk 4326 [Geom.line [(0, 0), (1, 0)]]) 4326 := by
  decide

/-- Claim C5 (amended): for layers whose geometries are all (valid)
polygons, and for exact reprojections (transform families that compose),
loading through the buffered path with distance 0 equals loading through the
unbuffered path: the geometries are the source polygons reprojected into the
target CRS. -/
theorem C5_buffer_zero_on_polygons (trans : ℕ → ℕ → ℚ × ℚ → ℚ × ℚ) (src : GeoDF)
    (t : ℕ) (hcomp : ∀ a b c p, trans b c (trans a b p) = trans a c p)
    (hpoly : ∀ g ∈ src.geoms, ∃ ps, g = Geom.poly ps) :
    get_geojson_with_buffer trans src t 0 = get_geojson trans src t := by
  unfold get_geojson_with_buffer get_geojson to_crs
  simp only [List.map_map]
  congr 1
  apply List.map_congr_left
  intro g hg
  obtain ⟨ps, rfl⟩ := hpoly g hg
  simp only [Function.comp, mapGeom, bufferGeom, if_pos, List.map_map]
  exact congrArg Geom.poly (List.map_congr_left fun p _ => hcomp src.crs 32633 t p)

/-- Claim C5 (amended) witness: a triangle layer, identity transforms. -/
theorem C5_buffer_zero_on_polygons_witness :
    get_geojson_with_buffer transId (GeoDF.mk 4326 [Geom.poly [(0, 0), (1, 0), (1, 1)]]) 3857 0 =
      get_geojson transId (GeoDF.mk 4326 [Geom.poly [(0, 0), (1, 0), (1, 1)]]) 3857 :=
  C5_buffer_zero_on_polygons transId (GeoDF.mk 4326 [Geom.poly [(0, 0), (1, 0), (1, 1)]]) 3857
    (fun a b c p => rfl)
    (fun g hg => ⟨[(0, 0), (1, 0), (1, 1)], List.mem_singleton.mp hg⟩)

/-
Claim C6.
-/

/-- Claim C6 counterexample: with the land-cover stage enabled and the
classifier returning the non-water label 1 everywhere, the output frame
differs from the stage-disabled output — the enabled path adds the
`terrain_label` column — so the two outputs are not bit-identical. -/
theorem C6_counterexample :
    (main_run true (fun _ => 1) [] [(0, detA)] "input.geojson").2 ≠
      (main_run false (fun _ => 1) [] [(0, detA)] "input.geojson").2 := by
  decide

/-- Claim C6 (amended): with every classification query returning a nonzero
(non-water) label, the land-cover stage keeps every row; the enabled and
disabled pipelines agree on indexes and on every attribute except the
`terrain_label` column the enabled stage adds. -/
theorem C6_skip_safe (classify : Box → ℤ) (layers : List (List (ℕ × Box)))
    (df : List (ℕ × Det)) (path : String) (hnz : ∀ g : Box, classify g ≠ 0) :
    ((main_run true classify layers df path).2).map stripLabel =
      ((main_run false classify layers df path).2).map stripLabel := by
  show (exclude_on_land_cover classify (excludeLayers (filter_by_postprocess_rule df) layers)).map
      stripLabel = (excludeLayers (filter_by_postprocess_rule df) layers).map stripLabel
  generalize excludeLayers (filter_by_postprocess_rule df) layers = X
  unfold exclude_on_land_cover
  rw [List.filter_eq_self.mpr ?hkeep]
  case hkeep =>
    intro p hp
    obtain ⟨q, hq, rfl⟩ := List.mem_map.mp hp
    simp [hnz q.2.geometry]
  rw [List.map_map]
  exact List.map_congr_left fun p _ => rfl

/-- Claim C6 (amended) witness at a concrete frame and layer. -/
theorem C6_skip_safe_witness :
    ((main_run true (fun _ => 1) [layerA] [(0, detA), (1, detB)] "input.geojson").2).map
        stripLabel =
      ((main_run false (fun _ => 1) [layerA] [(0, detA), (1, detB)] "input.geojson").2).map
        stripLabel :=
  C6_skip_safe (fun _ => 1) [layerA] [(0, detA), (1, detB)] "input.geojson"
    (fun g => one_ne_zero)

/-
Claim C7.
-/

/-- Claim C7 counterexample: the pipeline writes to the fixed path
`output/final_data.geojson` for every input; for the input filename
`NC_predictions_v2.geojson` the spec's region code is `NC`, and that code
does not occur anywhere in the output path — no region code is embedded. -/
theorem C7_counterexample :
    (main_run false (fun _ => 1) [] [(0, detA)] "NC_predictions_v2.geojson").1 =
        "output/final_data.geojson" ∧
      regionCodeSpec "NC_predictions_v2.geojson" = "NC" ∧
      charsContains ("NC".data) ("output/final_data.geojson".data) = false := by
  refine ⟨rfl, ?_, ?_⟩
  · decide
  · decide

/-- Claim C7 (amended): the pipeline writes its output to the fixed path
`output/final_data.geojson`, whatever the input path; no region code derived
from the input filename appears in the output path. -/
theorem C7_fixed_output_path (ee : Bool) (classify : Box → ℤ)
    (layers : List (List (ℕ × Box))) (df : List (ℕ × Det)) (path : String) :
    (main_run ee classify layers df path).1 = "output/final_data.geojson" :=
  rfl

/-
Claim C8.
-/

/-- A frame whose middle row fails the area predicate: the survivors of one
pass carry indexes 0 and 2, while a second pass renumbers them 0 and 1. -/
def df8 : List (ℕ × Det) :=
  [(0, detA), (1, ⟨4, 1, 1, ⟨0, 0, 1, 1⟩, none⟩), (2, detB)]

/-- Claim C8 counterexample: applying `filter_by_postprocess_rule` twice
does not reproduce the result of applying it once — the rows and values
agree, but the second pass resets the pandas index (the single pass leaves
the gap of the dropped row after its final, non-reset filter). -/
theorem C8_counterexample :
    filter_by_postprocess_rule (filter_by_postprocess_rule df8) ≠
      filter_by_postprocess_rule df8 := by
  decide

/-- Claim C8 (amended): `filter_by_postprocess_rule` is idempotent up to the
pandas index: applying it twice yields the same rows with the same values as
applying it once, the index possibly renumbered. -/
theorem C8_idempotent_values (df : List (ℕ × Det)) :
    rowVals (filter_by_postprocess_rule (filter_by_postprocess_rule df)) =
      rowVals (filter_by_postprocess_rule df) := by
  rw [filter_rule_vals, filter_rule_vals, List.filter_filter]
  apply List.filter_congr
  intro r _
  rw [Bool.and_self]

/-
Claims C9 and C10.
-/

/-- Claim C9: whenever the search returns at least one item, `get_tif_image`
returns an item of the list that lexicographically maximises
(overlap area with the bbox, year): overlap is the primary key and year only
breaks ties. -/
theorem C9_best_overlap (bbox : Bbox) (items : List Item) (h : items ≠ []) :
    ∃ best, get_tif_image bbox items = some best ∧ best ∈ items ∧
      ∀ it ∈ items, lexLe (itemKey (bbox_geo_item bbox) it)
        (itemKey (bbox_geo_item bbox) best) := by
  unfold get_tif_image
  rw [if_neg fun hlen => h (List.length_eq_zero.mp hlen)]
  exact sortDesc_head_max _ items h

/-- An item covering the whole query box but two years older. -/
def itemNear : Item := ⟨⟨0, 0, 10, 10⟩, 2020⟩

/-- A more recent item overlapping the query box less. -/
def itemFar : Item := ⟨⟨0, 0, 4, 4⟩, 2022⟩

/-- Claim C9 witness: the older, better-overlapping item wins over the more
recent one. -/
theorem C9_best_overlap_witness :
    ∃ best, get_tif_image ⟨0, 0, 8, 8⟩ [itemFar, itemNear] = some best ∧
      best ∈ [itemFar, itemNear] ∧
      ∀ it ∈ [itemFar, itemNear],
        lexLe (itemKey (bbox_geo_item ⟨0, 0, 8, 8⟩) it)
          (itemKey (bbox_geo_item ⟨0, 0, 8, 8⟩) best) :=
  C9_best_overlap ⟨0, 0, 8, 8⟩ [itemFar, itemNear] (by decide)

/-- Claim C10: when the catalog search returns no items, `get_tif_image`
returns `None` (after its diagnostic print) instead of raising, and the
ranking logic is never reached. -/
theorem C10_empty_search_none (bbox : Bbox) : get_tif_image bbox [] = none :=
  rfl
